import Mathlib

/-!
Shallow embedding of `main.py` of the `token_pricer` repository: a CLI tool
that walks a file or directory, filters files by extension and byte size,
counts tokens of each file's text via an external tokenizer, and prints
per-file lines plus a final summary with a cost estimate.

Modelling conventions:
* The external tokenizer (`tiktoken` with the `cl100k_base` vocabulary) is a
  black box; it is passed in as a parameter `tok : String → Nat` giving the
  token count of a text (the code only uses `len(encoding.encode(content))`).
* A filesystem file is a record of its displayed path, its final name
  component (from which `pathlib.Path.suffix` is computed), its byte size
  (`stat().st_size`), and the outcome of opening/reading/decoding it as UTF-8:
  `Except String String`, `.ok content` on success and `.error msg` for the
  exception message caught by `count_tokens_in_file`.
* Standard output is modelled as the list of printed lines, in order; the
  Python statement `print(f"\nSummary:")` contributes the two lines `""` and
  `"Summary:"`.
* `os.walk` is modelled by `DirTree.osWalk`, the top-down flattened
  enumeration of every file at any depth.  Per Python semantics, `os.walk`
  with the default `onerror=None` ignores the error raised when the root path
  does not exist or is not a directory and yields nothing, so a run on a
  `Target.missing` path walks the empty list.
* Python floats appear only in `format_token_count`
  (`f"{(count / 1_000_000 * 3):.2f}"`).  The two-decimal rendering is
  modelled by exact rational arithmetic with round-half-to-even (the rounding
  Python's float formatting applies), which agrees with the float computation
  whenever the latter is exact — in particular on the concrete counts the
  specification names (0; 1,000,000; 1,234,567).
-/

namespace TokenPricer

/-- A file as far as the program observes it: `path` is the string the
program prints for it, `name` its final path component (the `file` entry
yielded by `os.walk`, used for suffix matching), `size` its byte size from
`stat().st_size`, and `read` the result of `open(...).read()` with UTF-8
decoding: `.ok content`, or `.error msg` when any exception is raised. -/
structure File where
  path : String
  name : String
  size : Nat
  read : Except String String

/-- A directory subtree: the files directly in the directory and its
subdirectories.  Models the filesystem state that `os.walk` traverses. -/
inductive DirTree where
  | node (files : List File) (subs : List DirTree)

/-- What the positional `path` argument resolves to: an existing regular file
(`path.is_file()` is true), an existing directory, or nothing (the path does
not exist; `path.is_file()` is false and `os.walk` yields nothing). -/
inductive Target where
  | file (f : File)
  | dir (t : DirTree)
  | missing

/-- The parsed CLI arguments apart from the positional path (which is
represented by the `Target` it resolves to): the raw `--extensions` value,
the `--verbose` flag and the `--max-file-size` threshold. -/
structure Args where
  extensions : String
  verbose : Bool
  max_file_size : Nat

/-- The three accumulator variables of `main`: `total_tokens`, `total_files`
and `skipped_files`. -/
structure Totals where
  total_tokens : Nat
  total_files : Nat
  skipped_files : Nat
deriving Repr, DecidableEq

/-- Pointwise sum of accumulators, used to combine the contributions of
successive loop iterations. -/
def Totals.add (a b : Totals) : Totals :=
  ⟨a.total_tokens + b.total_tokens, a.total_files + b.total_files,
    a.skipped_files + b.skipped_files⟩

/-- Python `pathlib.PurePath.suffix` restricted to a final path component:
the index of the last `'.'` in the name, when there is one. -/
def lastDotIdx (l : List Char) : Option Nat :=
  (l.reverse.findIdx? (fun c => c == '.')).map (fun j => l.length - 1 - j)

/-- Python `pathlib.PurePath.suffix` of a file name: `name[i:]` where `i` is
the index of the last dot, provided `0 < i < len(name) - 1`; otherwise `""`
(so a dotfile like `".py"` and a name ending in a dot have empty suffix). -/
def pySuffix (name : String) : String :=
  let l := name.toList
  match lastDotIdx l with
  | none => ""
  | some i => if 0 < i ∧ i + 1 < l.length then String.mk (l.drop i) else ""

/-- Python `ext.startswith('.')` for the one-character pattern `'.'`: true
exactly when the string is nonempty and its first character is `'.'`. -/
def startsWithDot (e : String) : Bool :=
  match e.toList with
  | [] => false
  | c :: _ => c == '.'

/-- Lines 59–60 of `main.py` applied to one entry: `ext if
ext.startswith('.') else f'.{ext}'`. -/
def normalizeExt (e : String) : String :=
  if startsWithDot e then e else "." ++ e

/-- Python `str.split(',')` over the character list: split at every comma,
keeping empty fields (so `""` splits to `[""]` and `"a,,b"` to
`["a", "", "b"]`). -/
def splitCommaAux : List Char → List Char → List String
  | [], acc => [String.mk acc.reverse]
  | c :: cs, acc =>
    if c == ',' then String.mk acc.reverse :: splitCommaAux cs []
    else splitCommaAux cs (c :: acc)

/-- Lines 59–60 of `main.py`: split the `--extensions` value on commas
(Python `args.extensions.split(',')`) and prepend a dot to every entry that
lacks one. -/
def parseExtensions (s : String) : List String :=
  (splitCommaAux s.toList []).map normalizeExt

/-- `get_default_extensions` of `main.py`. -/
def get_default_extensions : List String :=
  [".py", ".js", ".jsx", ".ts", ".tsx", ".java", ".cpp", ".c",
   ".h", ".hpp", ".cs", ".rb", ".php", ".go", ".rs", ".swift",
   ".kt", ".kts", ".scala", ".sql", ".html", ".css", ".scss",
   ".sass", ".less", ".md", ".txt", ".json", ".yaml", ".yml"]

/-- The default value of the `--extensions` argument:
`','.join(get_default_extensions())`. -/
def defaultExtensionsArg : String :=
  String.intercalate "," get_default_extensions

/-- Insert a `','` before every fourth, seventh, … digit of a reversed digit
list: helper for Python's `f"{count:,}"` thousands grouping. -/
def icAux : Nat → List Char → List Char
  | _, [] => []
  | k, c :: cs => if k = 3 then ',' :: c :: icAux 1 cs else c :: icAux (k + 1) cs

/-- Python `f"{n:,}"` for a non-negative integer: decimal digits with comma
thousands grouping. -/
def commaFormat (n : Nat) : String :=
  String.mk ((icAux 0 (toString n).toList.reverse).reverse)

/-- The cost `count / 1_000_000 * 3` rendered to two decimals, expressed in
cents: `count * 3 / 10000` rounded half-to-even on exact rationals (see the
module docstring for the relation to Python's float formatting). -/
def costCents (count : Nat) : Nat :=
  let q := count * 3
  let d := q / 10000
  let r := q % 10000
  if 2 * r < 10000 then d
  else if 10000 < 2 * r then d + 1
  else if d % 2 = 0 then d else d + 1

/-- Render a cents remainder as exactly two decimal digits. -/
def twoDigits (n : Nat) : String :=
  (if n < 10 then "0" else "") ++ toString n

/-- `format_token_count` of `main.py`:
`f"{count:,} tokens (≈${(count / 1_000_000 * 3):.2f} at $3/1M tokens)"`. -/
def format_token_count (count : Nat) : String :=
  commaFormat count ++ " tokens (≈$" ++ toString (costCents count / 100) ++ "."
    ++ twoDigits (costCents count % 100) ++ " at $3/1M tokens)"

/-- `count_tokens_in_file` of `main.py`: on a successful UTF-8 read, the
token count of the content and no output; on any exception, the one-line
diagnostic `Error processing {file_path}: {str(e)}` and a count of 0. -/
def count_tokens_in_file (tok : String → Nat) (f : File) : Nat × List String :=
  match f.read with
  | .ok content => (tok content, [])
  | .error e => (0, ["Error processing " ++ f.path ++ ": " ++ e])

/-- The per-file verbose line `f"{file_path}: {format_token_count(tokens)}"`. -/
def fileLine (path : String) (tokens : Nat) : String :=
  path ++ ": " ++ format_token_count tokens

/-- The skip notice `f"Skipped {file_path}: File too large"`. -/
def skipLine (path : String) : String :=
  "Skipped " ++ path ++ ": File too large"

/-- The observable effect of a piece of the run: the accumulator deltas, the
lines printed, and the paths passed to `count_tokens_in_file` (i.e. the files
the run opens and tokenizes), each in order. -/
structure StepOut where
  totals : Totals
  out : List String
  tokenized : List String
deriving Repr, DecidableEq

/-- Sequential composition of two run pieces. -/
def StepOut.seq (a b : StepOut) : StepOut :=
  ⟨a.totals.add b.totals, a.out ++ b.out, a.tokenized ++ b.tokenized⟩

/-- Lines 79–91 of `main.py`: the body of the directory-walk loop for one
yielded file.  The extension filter tests `file_path.suffix in extensions`;
matching files within the size bound are tokenized (printing the per-file
line when verbose), larger ones are counted as skipped (printing the skip
notice only when verbose). -/
def processWalkFile (tok : String → Nat) (extensions : List String)
    (max_file_size : Nat) (verbose : Bool) (f : File) : StepOut :=
  if pySuffix f.name ∈ extensions then
    if f.size ≤ max_file_size then
      let r := count_tokens_in_file tok f
      ⟨⟨r.1, 1, 0⟩, r.2 ++ (if verbose then [fileLine f.path r.1] else []), [f.path]⟩
    else
      ⟨⟨0, 0, 1⟩, (if verbose then [skipLine f.path] else []), []⟩
  else ⟨⟨0, 0, 0⟩, [], []⟩

/-- The directory-walk loop (lines 78–91) over the sequence of files that
`os.walk` yields, in order. -/
def runWalk (tok : String → Nat) (extensions : List String)
    (max_file_size : Nat) (verbose : Bool) : List File → StepOut
  | [] => ⟨⟨0, 0, 0⟩, [], []⟩
  | f :: rest =>
    (processWalkFile tok extensions max_file_size verbose f).seq
      (runWalk tok extensions max_file_size verbose rest)

/-- Lines 67–76 of `main.py`: the single-file branch.  No extension check;
the size check gates tokenization, and the skip notice is printed
unconditionally (not only in verbose mode) in this branch. -/
def processSingle (tok : String → Nat) (max_file_size : Nat) (verbose : Bool)
    (f : File) : StepOut :=
  if f.size ≤ max_file_size then
    let r := count_tokens_in_file tok f
    ⟨⟨r.1, 1, 0⟩, r.2 ++ (if verbose then [fileLine f.path r.1] else []), [f.path]⟩
  else ⟨⟨0, 0, 1⟩, [skipLine f.path], []⟩

mutual

/-- The flattened top-down `os.walk` enumeration of a directory tree: the
files of the root directory, then, depth-first, those of each subtree. -/
def DirTree.osWalk : DirTree → List File
  | .node fs ds => fs ++ osWalkList ds

/-- `os.walk` continued over a list of subdirectories. -/
def osWalkList : List DirTree → List File
  | [] => []
  | d :: ds => d.osWalk ++ osWalkList ds

end

/-- The sequence of files `os.walk(path)` yields for a resolved target: the
walk of the tree for a directory, and the empty sequence when the path is
missing (the scandir error is ignored by `os.walk`'s default
`onerror=None`).  Unused for the `Target.file` case, where `main` takes the
single-file branch instead. -/
def targetWalk : Target → List File
  | .file _ => []
  | .dir t => t.osWalk
  | .missing => []

/-- Lines 93–96 of `main.py`: the summary block (the first `print` emits a
blank line then `Summary:`). -/
def summaryLines (t : Totals) : List String :=
  ["", "Summary:",
   "Total files processed: " ++ commaFormat t.total_files,
   "Files skipped (too large): " ++ commaFormat t.skipped_files,
   "Total: " ++ format_token_count t.total_tokens]

/-- The effect of `main` before the summary: the single-file branch when
`path.is_file()`, otherwise the walk loop over what `os.walk` yields. -/
def mainBody (tok : String → Nat) (args : Args) (tgt : Target) : StepOut :=
  match tgt with
  | .file f => processSingle tok args.max_file_size args.verbose f
  | _ =>
    runWalk tok (parseExtensions args.extensions) args.max_file_size
      args.verbose (targetWalk tgt)

/-- The observable result of one run of `main`: all printed lines in order,
the final accumulator values, and the paths tokenized. -/
structure RunResult where
  out : List String
  totals : Totals
  tokenized : List String
deriving Repr, DecidableEq

/-- `main` of `main.py` (lines 34–96): parse the extension list, process the
target, then always print the summary block. -/
def main (tok : String → Nat) (args : Args) (tgt : Target) : RunResult :=
  let b := mainBody tok args tgt
  ⟨b.out ++ summaryLines b.totals, b.totals, b.tokenized⟩

/-- A file lies (at any depth) inside a directory tree: either directly among
the root's files, or inside one of the subtrees. -/
inductive InTree (f : File) : DirTree → Prop
  | here (fs : List File) (ds : List DirTree) :
      f ∈ fs → InTree f (DirTree.node fs ds)
  | deeper (fs : List File) (ds : List DirTree) (d : DirTree) :
      d ∈ ds → InTree f d → InTree f (DirTree.node fs ds)

/-- Tokenizer used in the concrete runs below: the token count of a text
abstracted as its character count. -/
def tokLen : String → Nat := fun s => s.length

/-- The arguments of a run with the default extension set, non-verbose, and
the default 1 MiB size threshold. -/
def argsDefault : Args := ⟨defaultExtensionsArg, false, 1048576⟩

/-- Arguments of a small concrete run: three extensions, verbose, a 100-byte
size threshold. -/
def argsSmall : Args := ⟨".py,.md,.txt", true, 100⟩

/-- A small extension list for concrete runs. -/
def exts0 : List String := [".py", ".md", ".txt"]

/-- A readable 10-byte Python file. -/
def fOk : File := ⟨"d/a.py", "a.py", 10, Except.ok "def f"⟩

/-- A 2,000,000-byte Markdown file (over every threshold used below). -/
def fBig : File := ⟨"d/big.md", "big.md", 2000000, Except.ok "x"⟩

/-- A small text file whose read raises (e.g. not valid UTF-8). -/
def fBad : File := ⟨"d/bad.txt", "bad.txt", 5, Except.error "boom"⟩

/-- A file whose size is exactly the 100-byte threshold of `argsSmall`. -/
def fEq : File := ⟨"d/eq.py", "eq.py", 100, Except.ok "abc"⟩

/-- A readable file whose extension `.xyz` is in no extension set used
below. -/
def fNoExt : File := ⟨"notes.xyz", "notes.xyz", 10, Except.ok "hello"⟩

/-- A dotfile named exactly `.py` (its `pathlib` suffix is empty). -/
def fDot : File := ⟨"d/.py", ".py", 5, Except.ok "x"⟩

/-- A concrete directory tree: `fOk` and `fBig` at the root, `fBad` in a
subdirectory. -/
def tree0 : DirTree := DirTree.node [fOk, fBig] [DirTree.node [fBad] []]

/-! ## Helper lemmas -/

/-- A walk-loop iteration on a file whose suffix misses the extension list
does nothing. -/
theorem processWalkFile_not_mem (tok : String → Nat) (exts : List String)
    (m : Nat) (v : Bool) (f : File) (h : pySuffix f.name ∉ exts) :
    processWalkFile tok exts m v f = ⟨⟨0, 0, 0⟩, [], []⟩ := by
  simp [processWalkFile, h]

/-- A walk-loop iteration on a matching file over the size threshold only
increments the skip counter (and prints only when verbose). -/
theorem processWalkFile_skip (tok : String → Nat) (exts : List String)
    (m : Nat) (v : Bool) (f : File) (h1 : pySuffix f.name ∈ exts)
    (h2 : m < f.size) :
    processWalkFile tok exts m v f =
      ⟨⟨0, 0, 1⟩, (if v then [skipLine f.path] else []), []⟩ := by
  have h2' : ¬ f.size ≤ m := not_le.mpr h2
  simp [processWalkFile, h1, h2']

/-- A walk-loop iteration on a matching file within the size threshold
tokenizes it. -/
theorem processWalkFile_proc (tok : String → Nat) (exts : List String)
    (m : Nat) (v : Bool) (f : File) (h1 : pySuffix f.name ∈ exts)
    (h2 : f.size ≤ m) :
    processWalkFile tok exts m v f =
      ⟨⟨(count_tokens_in_file tok f).1, 1, 0⟩,
        (count_tokens_in_file tok f).2
          ++ (if v then [fileLine f.path (count_tokens_in_file tok f).1] else []),
        [f.path]⟩ := by
  simp [processWalkFile, h1, h2]

/-- The empty run piece is a left identity for sequential composition. -/
theorem StepOut.zero_seq (b : StepOut) :
    StepOut.seq ⟨⟨0, 0, 0⟩, [], []⟩ b = b := by
  cases b with
  | mk t o tk => cases t; simp [StepOut.seq, Totals.add]

/-- Sequential composition of run pieces is associative. -/
theorem StepOut.seq_assoc (a b c : StepOut) :
    (a.seq b).seq c = a.seq (b.seq c) := by
  simp [StepOut.seq, Totals.add, Nat.add_assoc]

/-- The walk loop over a concatenation is the composition of the two
loops. -/
theorem runWalk_append (tok : String → Nat) (exts : List String) (m : Nat)
    (v : Bool) (xs ys : List File) :
    runWalk tok exts m v (xs ++ ys) =
      (runWalk tok exts m v xs).seq (runWalk tok exts m v ys) := by
  induction xs with
  | nil => rw [List.nil_append, runWalk, StepOut.zero_seq]
  | cons f xs ih => rw [List.cons_append, runWalk, runWalk, ih, StepOut.seq_assoc]

/-- One walk iteration touches `total_files + skipped_files` exactly when the
suffix matches. -/
theorem processWalkFile_conservation (tok : String → Nat) (exts : List String)
    (m : Nat) (v : Bool) (f : File) :
    (processWalkFile tok exts m v f).totals.total_files
        + (processWalkFile tok exts m v f).totals.skipped_files
      = if pySuffix f.name ∈ exts then 1 else 0 := by
  by_cases h1 : pySuffix f.name ∈ exts
  · by_cases h2 : f.size ≤ m
    · rw [processWalkFile_proc tok exts m v f h1 h2]; simp [h1]
    · rw [processWalkFile_skip tok exts m v f h1 (not_le.mp h2)]; simp [h1]
  · rw [processWalkFile_not_mem tok exts m v f h1]; simp [h1]

/-- Conservation over the whole walk loop: processed plus skipped equals the
number of extension-matching files in the walked sequence. -/
theorem runWalk_conservation (tok : String → Nat) (exts : List String)
    (m : Nat) (v : Bool) (l : List File) :
    (runWalk tok exts m v l).totals.total_files
        + (runWalk tok exts m v l).totals.skipped_files
      = (l.filter (fun f => pySuffix f.name ∈ exts)).length := by
  induction l with
  | nil => rfl
  | cons f rest ih =>
    have hstep := processWalkFile_conservation tok exts m v f
    rw [runWalk]
    by_cases h1 : pySuffix f.name ∈ exts
    · rw [if_pos h1] at hstep
      rw [List.filter_cons, if_pos (by simpa using h1)]
      simp only [StepOut.seq, Totals.add, List.length_cons]
      omega
    · rw [if_neg h1] at hstep
      rw [List.filter_cons, if_neg (by simpa using h1)]
      simp only [StepOut.seq, Totals.add]
      omega

/-- The files the walk loop tokenizes are exactly the walked files that pass
both the extension filter and the size filter, in walk order. -/
theorem runWalk_tokenized (tok : String → Nat) (exts : List String) (m : Nat)
    (v : Bool) (l : List File) :
    (runWalk tok exts m v l).tokenized
      = (l.filter (fun f => pySuffix f.name ∈ exts ∧ f.size ≤ m)).map
          File.path := by
  induction l with
  | nil => rfl
  | cons f rest ih =>
    rw [runWalk]
    by_cases h1 : pySuffix f.name ∈ exts
    · by_cases h2 : f.size ≤ m
      · rw [List.filter_cons, if_pos (by simp [h1, h2])]
        rw [processWalkFile_proc tok exts m v f h1 h2]
        simp only [StepOut.seq, List.map_cons, ih]
        rfl
      · rw [List.filter_cons, if_neg (by simp [h1, h2])]
        rw [processWalkFile_skip tok exts m v f h1 (not_le.mp h2)]
        simp only [StepOut.seq, ih]
        rfl
    · rw [List.filter_cons, if_neg (by simp [h1])]
      rw [processWalkFile_not_mem tok exts m v f h1]
      simp only [StepOut.seq, ih]
      rfl

mutual

/-- A file appears in the `os.walk` enumeration of a tree iff it lies at some
depth in the tree. -/
theorem mem_osWalk (f : File) : (t : DirTree) → (f ∈ t.osWalk ↔ InTree f t)
  | DirTree.node fs ds => by
    rw [DirTree.osWalk]
    constructor
    · intro h
      rcases List.mem_append.mp h with h | h
      · exact InTree.here fs ds h
      · rcases (mem_osWalkList f ds).mp h with ⟨d, hd, hin⟩
        exact InTree.deeper fs ds d hd hin
    · intro h
      cases h with
      | here _ _ hf => exact List.mem_append.mpr (Or.inl hf)
      | deeper _ _ d hd hin =>
        exact List.mem_append.mpr (Or.inr ((mem_osWalkList f ds).mpr ⟨d, hd, hin⟩))

/-- A file appears in the walk of a list of subtrees iff it lies in one of
them. -/
theorem mem_osWalkList (f : File) :
    (ds : List DirTree) → (f ∈ osWalkList ds ↔ ∃ d, d ∈ ds ∧ InTree f d)
  | [] => by simp [osWalkList]
  | d :: ds => by
    rw [osWalkList]
    constructor
    · intro h
      rcases List.mem_append.mp h with h | h
      · exact ⟨d, List.mem_cons_self d ds, (mem_osWalk f d).mp h⟩
      · rcases (mem_osWalkList f ds).mp h with ⟨d2, hd2, hin⟩
        exact ⟨d2, List.mem_cons_of_mem d hd2, hin⟩
    · rintro ⟨d2, hd2, hin⟩
      rcases List.mem_cons.mp hd2 with h | h
      · exact List.mem_append.mpr (Or.inl ((mem_osWalk f d).mpr (h ▸ hin)))
      · exact List.mem_append.mpr (Or.inr ((mem_osWalkList f ds).mpr ⟨d2, h, hin⟩))

end

/-- Normalized extension entries are never the empty string. -/
theorem normalizeExt_ne_empty (e : String) : normalizeExt e ≠ "" := by
  rw [normalizeExt]
  by_cases h : startsWithDot e
  · rw [if_pos h]
    intro he
    rw [he] at h
    exact absurd h (by decide)
  · rw [if_neg h]
    intro he
    have hd : ("." ++ e).data = ("" : String).data := congrArg String.data he
    rw [String.data_append] at hd
    simp at hd

/-- No parsed extension list contains the empty string, whatever the raw
`--extensions` value. -/
theorem empty_not_mem_parseExtensions (s : String) :
    "" ∉ parseExtensions s := by
  intro h
  rcases List.mem_map.mp h with ⟨e, _, he⟩
  exact normalizeExt_ne_empty e he

/-! ## Claims -/

/-- Claim C1 counterexample: on a positional path that names a single file
that does not exist, the run does NOT terminate before the summary — the
concrete run prints the full summary block (with all totals zero), so
`"Summary:"` is among the printed lines. -/
theorem C1_counterexample :
    "Summary:" ∈ (main tokLen argsDefault Target.missing).out ∧
    (main tokLen argsDefault Target.missing).out =
      ["", "Summary:", "Total files processed: 0",
       "Files skipped (too large): 0",
       "Total: 0 tokens (≈$0.00 at $3/1M tokens)"] :=
  ⟨by decide, by decide⟩

/-- Claim C1 (amended): if the positional path names a single file that does
not exist, `path.is_file()` is false and `os.walk` ignores the scandir error
and yields nothing, so the run completes normally, tokenizes nothing, and
prints the summary block with all three totals zero. -/
theorem C1_missing_path_zero_summary (tok : String → Nat) (args : Args) :
    (main tok args Target.missing).totals = ⟨0, 0, 0⟩ ∧
    (main tok args Target.missing).out = summaryLines ⟨0, 0, 0⟩ ∧
    (main tok args Target.missing).tokenized = [] :=
  ⟨rfl, rfl, rfl⟩

/-- Claim C2: at the end of every run over a directory root, `total_files +
skipped_files` equals the number of files discovered during the traversal
whose suffix is in the extension set. -/
theorem C2_conservation (tok : String → Nat) (args : Args) (t : DirTree) :
    (main tok args (Target.dir t)).totals.total_files
        + (main tok args (Target.dir t)).totals.skipped_files
      = (t.osWalk.filter
          (fun f => pySuffix f.name ∈ parseExtensions args.extensions)).length :=
  runWalk_conservation tok (parseExtensions args.extensions) args.max_file_size
    args.verbose t.osWalk

/-- Claim C3: over a directory root, the files tokenized are exactly the
files at any depth under it whose suffix is a case-sensitive exact match to
an entry of the extension set, minus those whose byte size exceeds the
threshold — as the ordered walk sub-sequence, and as a membership
characterization through `InTree`. -/
theorem C3_visited_exactly (tok : String → Nat) (args : Args) (t : DirTree) :
    (main tok args (Target.dir t)).tokenized
        = (t.osWalk.filter (fun f =>
            pySuffix f.name ∈ parseExtensions args.extensions ∧
              f.size ≤ args.max_file_size)).map File.path ∧
    ∀ p, p ∈ (main tok args (Target.dir t)).tokenized ↔
      ∃ f, InTree f t ∧ pySuffix f.name ∈ parseExtensions args.extensions ∧
        f.size ≤ args.max_file_size ∧ f.path = p := by
  have hlist : (main tok args (Target.dir t)).tokenized
      = (t.osWalk.filter (fun f =>
          pySuffix f.name ∈ parseExtensions args.extensions ∧
            f.size ≤ args.max_file_size)).map File.path :=
    runWalk_tokenized tok (parseExtensions args.extensions) args.max_file_size
      args.verbose t.osWalk
  refine ⟨hlist, fun p => ?_⟩
  rw [hlist]
  constructor
  · intro hp
    rcases List.mem_map.mp hp with ⟨f, hf, hfp⟩
    rcases List.mem_filter.mp hf with ⟨hw, hq⟩
    have hq' : pySuffix f.name ∈ parseExtensions args.extensions ∧
        f.size ≤ args.max_file_size := by simpa using hq
    exact ⟨f, (mem_osWalk f t).mp hw, hq'.1, hq'.2, hfp⟩
  · rintro ⟨f, hin, h1, h2, hfp⟩
    exact List.mem_map.mpr
      ⟨f, List.mem_filter.mpr ⟨(mem_osWalk f t).mpr hin,
        by simpa using And.intro h1 h2⟩, hfp⟩

/-- Claim C7: for every target and otherwise equal arguments, running with
`--extensions py,js` produces output, totals and tokenized files identical to
running with `--extensions .py,.js`: entries without a leading dot get one
prepended before any matching. -/
theorem C7_extension_normalization (tok : String → Nat) (v : Bool) (m : Nat)
    (tgt : Target) :
    main tok ⟨"py,js", v, m⟩ tgt = main tok ⟨".py,.js", v, m⟩ tgt := by
  have h : parseExtensions "py,js" = parseExtensions ".py,.js" := by decide
  cases tgt with
  | file f => rfl
  | dir t => simp only [main, mainBody, h]
  | missing => rfl

/-- Claim C8: the token-count formatter renders the cost
`count / 1_000_000 * 3` to two decimal places and the count with comma
thousands grouping: count 1,000,000 gives exactly `$3.00`, count 0 gives
exactly `$0.00`, and 1234567 renders as `1,234,567`. -/
theorem C8_formatting :
    format_token_count 1000000 = "1,000,000 tokens (≈$3.00 at $3/1M tokens)" ∧
    format_token_count 0 = "0 tokens (≈$0.00 at $3/1M tokens)" ∧
    format_token_count 1234567 = "1,234,567 tokens (≈$3.70 at $3/1M tokens)" ∧
    commaFormat 1234567 = "1,234,567" :=
  ⟨by decide, by decide, by decide, by decide⟩

/-- Claim C9: the run is deterministic in its inputs — for a fixed filesystem
state (target) and fixed arguments, two runs produce identical totals and
identical output. -/
theorem C9_deterministic (tok : String → Nat) (a1 a2 : Args) (t1 t2 : Target)
    (ha : a1 = a2) (ht : t1 = t2) :
    (main tok a1 t1).totals = (main tok a2 t2).totals ∧
    (main tok a1 t1).out = (main tok a2 t2).out := by
  subst ha; subst ht; exact ⟨rfl, rfl⟩

/-- Claim C9 witness: the determinism theorem applied to a concrete run over
`tree0`. -/
theorem C9_witness :
    (main tokLen argsSmall (Target.dir tree0)).totals
        = (main tokLen argsSmall (Target.dir tree0)).totals ∧
    (main tokLen argsSmall (Target.dir tree0)).out
        = (main tokLen argsSmall (Target.dir tree0)).out :=
  C9_deterministic tokLen argsSmall argsSmall (Target.dir tree0)
    (Target.dir tree0) rfl rfl

/-- Claim C4: the size threshold is an inclusive upper bound, in both the
walk loop and the single-file branch: a candidate file whose size equals the
threshold is tokenized, while one whose size exceeds it only increments the
skip counter, is never passed to the tokenizer, and is never opened (the
outcome is unchanged whatever its read result would have been). -/
theorem C4_threshold_inclusive (tok : String → Nat) (exts : List String)
    (m : Nat) (v : Bool) (feq fgt : File)
    (heq : feq.size = m) (hmeq : pySuffix feq.name ∈ exts)
    (hgt : m < fgt.size) (hmgt : pySuffix fgt.name ∈ exts) :
    ((processWalkFile tok exts m v feq).totals.total_files = 1 ∧
      (processWalkFile tok exts m v feq).totals.skipped_files = 0 ∧
      (processWalkFile tok exts m v feq).tokenized = [feq.path]) ∧
    ((processWalkFile tok exts m v fgt).totals = ⟨0, 0, 1⟩ ∧
      (processWalkFile tok exts m v fgt).tokenized = [] ∧
      ∀ r, processWalkFile tok exts m v ⟨fgt.path, fgt.name, fgt.size, r⟩
          = processWalkFile tok exts m v fgt) ∧
    ((processSingle tok m v feq).totals.total_files = 1 ∧
      (processSingle tok m v feq).tokenized = [feq.path]) ∧
    ((processSingle tok m v fgt).totals = ⟨0, 0, 1⟩ ∧
      (processSingle tok m v fgt).tokenized = [] ∧
      ∀ r, processSingle tok m v ⟨fgt.path, fgt.name, fgt.size, r⟩
          = processSingle tok m v fgt) := by
  have hle : feq.size ≤ m := le_of_eq heq
  have hnle : ¬ fgt.size ≤ m := not_le.mpr hgt
  refine ⟨?_, ⟨?_, ?_, ?_⟩, ⟨?_, ?_⟩, ?_, ?_, ?_⟩
  · rw [processWalkFile_proc tok exts m v feq hmeq hle]
    exact ⟨rfl, rfl, rfl⟩
  · rw [processWalkFile_skip tok exts m v fgt hmgt hgt]
  · rw [processWalkFile_skip tok exts m v fgt hmgt hgt]
  · intro r
    rw [processWalkFile_skip tok exts m v fgt hmgt hgt,
      processWalkFile_skip tok exts m v ⟨fgt.path, fgt.name, fgt.size, r⟩ hmgt hgt]
  · simp [processSingle, hle]
  · simp [processSingle, hle]
  · simp [processSingle, hnle]
  · simp [processSingle, hnle]
  · intro r
    simp [processSingle, hnle]

/-- Claim C4 witness: the threshold theorem at the 100-byte threshold, with
`fEq` of size exactly 100 and `fBig` of size 2,000,000. -/
theorem C4_witness :
    (processWalkFile tokLen exts0 100 true fEq).totals.total_files = 1 ∧
    (processWalkFile tokLen exts0 100 true fBig).totals = ⟨0, 0, 1⟩ ∧
    (processWalkFile tokLen exts0 100 true fBig).tokenized = [] := by
  have h := C4_threshold_inclusive tokLen exts0 100 true fEq fBig rfl
    (by decide) (by decide) (by decide)
  exact ⟨h.1.1, h.2.1.1, h.2.1.2.1⟩

/-- Claim C5: a file whose read or decode raises is handled at file
granularity: the one-line diagnostic naming the file and the error message is
printed, the file contributes zero tokens (though it still counts as
processed), and the surrounding files are processed exactly as they would be
on their own — the run continues. -/
theorem C5_read_failure_isolated (tok : String → Nat) (exts : List String)
    (m : Nat) (v : Bool) (l1 l2 : List File) (f : File) (e : String)
    (hread : f.read = Except.error e) (hmem : pySuffix f.name ∈ exts)
    (hsize : f.size ≤ m) :
    ("Error processing " ++ f.path ++ ": " ++ e)
        ∈ (runWalk tok exts m v (l1 ++ f :: l2)).out ∧
    (runWalk tok exts m v (l1 ++ f :: l2)).totals.total_tokens
        = (runWalk tok exts m v l1).totals.total_tokens
          + (runWalk tok exts m v l2).totals.total_tokens ∧
    (runWalk tok exts m v (l1 ++ f :: l2)).totals.total_files
        = (runWalk tok exts m v l1).totals.total_files + 1
          + (runWalk tok exts m v l2).totals.total_files ∧
    (runWalk tok exts m v (l1 ++ f :: l2)).tokenized
        = (runWalk tok exts m v l1).tokenized
          ++ f.path :: (runWalk tok exts m v l2).tokenized := by
  have hstep : processWalkFile tok exts m v f
      = ⟨⟨0, 1, 0⟩,
          ("Error processing " ++ f.path ++ ": " ++ e)
            :: (if v then [fileLine f.path 0] else []),
          [f.path]⟩ := by
    rw [processWalkFile_proc tok exts m v f hmem hsize]
    simp [count_tokens_in_file, hread]
  have hsplit : runWalk tok exts m v (l1 ++ f :: l2)
      = (runWalk tok exts m v l1).seq
          ((processWalkFile tok exts m v f).seq (runWalk tok exts m v l2)) := by
    rw [runWalk_append]
    rw [runWalk]
  refine ⟨?_, ?_, ?_, ?_⟩
  · rw [hsplit, hstep]
    simp [StepOut.seq]
  · rw [hsplit, hstep]
    simp only [StepOut.seq, Totals.add]
    omega
  · rw [hsplit, hstep]
    simp only [StepOut.seq, Totals.add]
    omega
  · rw [hsplit, hstep]
    simp [StepOut.seq]

/-- Claim C5 witness: the isolation theorem for the failing `fBad` placed
between two copies of the readable `fOk`. -/
theorem C5_witness :
    ("Error processing " ++ fBad.path ++ ": " ++ "boom")
        ∈ (runWalk tokLen exts0 100 true ([fOk] ++ fBad :: [fOk])).out ∧
    (runWalk tokLen exts0 100 true ([fOk] ++ fBad :: [fOk])).totals.total_tokens
        = (runWalk tokLen exts0 100 true [fOk]).totals.total_tokens
          + (runWalk tokLen exts0 100 true [fOk]).totals.total_tokens := by
  have h := C5_read_failure_isolated tokLen exts0 100 true [fOk] [fOk] fBad
    "boom" rfl (by decide) (by decide)
  exact ⟨h.1, h.2.1⟩

/-- Claim C6: a single-file target within the size threshold is tokenized and
counted no matter its extension — the conclusion needs no hypothesis about
the extension set, and the whole run result is unchanged under any
replacement of the `--extensions` value. -/
theorem C6_single_file_ignores_extensions (tok : String → Nat) (args : Args)
    (f : File) (hsize : f.size ≤ args.max_file_size) :
    (main tok args (Target.file f)).totals.total_files = 1 ∧
    (main tok args (Target.file f)).totals.skipped_files = 0 ∧
    (main tok args (Target.file f)).tokenized = [f.path] ∧
    (main tok args (Target.file f)).totals.total_tokens
        = (count_tokens_in_file tok f).1 ∧
    ∀ s : String,
      main tok ⟨s, args.verbose, args.max_file_size⟩ (Target.file f)
        = main tok args (Target.file f) := by
  refine ⟨?_, ?_, ?_, ?_, fun s => rfl⟩ <;>
    simp [main, mainBody, processSingle, hsize]

/-- Claim C6 witness: the single-file theorem on `fNoExt`, whose suffix
`.xyz` is not in the extension set of the run. -/
theorem C6_witness :
    pySuffix fNoExt.name ∉ parseExtensions argsSmall.extensions ∧
    (main tokLen argsSmall (Target.file fNoExt)).totals.total_files = 1 ∧
    (main tokLen argsSmall (Target.file fNoExt)).tokenized = [fNoExt.path] := by
  have h := C6_single_file_ignores_extensions tokLen argsSmall fNoExt (by decide)
  exact ⟨by decide, h.1, h.2.2.1⟩

/-- Claim C10: extension matching during traversal uses only the last-dot
suffix of the file name: a dotfile named exactly `.py` has empty suffix, the
empty string is never in a parsed extension set, so such a file is a no-op of
the walk loop even when `.py` is in the set; and `a.tar.gz` has suffix `.gz`,
never a multi-part suffix like `.tar.gz`. -/
theorem C10_last_dot_suffix (tok : String → Nat) (s : String) (m : Nat)
    (v : Bool) (f : File) (hname : f.name = ".py") :
    pySuffix ".py" = "" ∧
    pySuffix "a.tar.gz" = ".gz" ∧
    pySuffix "a.tar.gz" ≠ ".tar.gz" ∧
    processWalkFile tok (parseExtensions s) m v f = ⟨⟨0, 0, 0⟩, [], []⟩ := by
  refine ⟨by decide, by decide, by decide, ?_⟩
  apply processWalkFile_not_mem
  rw [hname]
  have hsfx : pySuffix ".py" = "" := by decide
  rw [hsfx]
  exact empty_not_mem_parseExtensions s

/-- Claim C10 witness: the dotfile `fDot` (named exactly `.py`) is a no-op of
the walk loop even though `.py` is in the parsed extension set. -/
theorem C10_witness :
    ".py" ∈ parseExtensions "py,js" ∧
    processWalkFile tokLen (parseExtensions "py,js") 100 true fDot
      = ⟨⟨0, 0, 0⟩, [], []⟩ := by
  have h := C10_last_dot_suffix tokLen "py,js" 100 true fDot rfl
  exact ⟨by decide, h.2.2.2⟩

end TokenPricer
